import Mathlib

/-!
Verification development for the findr expression compiler and evaluator.

The Rust sources embedded here are:
  src/ast.rs          - the `Expr`/`Test` data model (inductive types below)
  src/interpreter.rs  - `Interpreter::evaluate` and the per-test matchers
  src/parser.rs       - `parse_to_ast` and its `ParseError` diagnostics
  src/main.rs         - the compile pipeline driver (grammar parse + AST build)

Modelling conventions:
  - Machine integers (u32, u64) are `Nat`, with an explicit `% 2^64` where the
    Rust arithmetic can wrap (release-build overflow semantics).
  - A Rust function that can panic is embedded with result type `Option _`;
    `none` models a panic (an `unwrap`/`expect` on a failed computation).
  - `walkdir::DirEntry` plus the OS metadata view is the `Entry`/`Meta`
    structures; `SystemTime` values are seconds since the epoch (`Nat`), and
    `SystemTime::now` is the `now` field of an `Env`.  `fs::metadata` on a
    reference path is the `fs` field of `Env`.  A `none` timestamp models an
    `Err` from `accessed()`/`created()`/`modified()`.
  - The glob and regex crates are external pattern-matching services; they are
    modelled on an executable fragment of their documented semantics (globs:
    literals, `?`, `*` with default `MatchOptions`; regexes: literals, `.`,
    `^`, `$`, top-level alternation `|` binding loosest, and the `(?i)` flag
    prefix).  Characters outside the fragment (character classes, repetition
    operators, groups) make the modelled pattern compiler return `none`, which
    the interpreter treats exactly as the crates' compile errors: the match
    is `false`.
  - `grammar.pest` is not part of the sources; the grammar-driven token
    parse is modelled from the spec (sections 4.1 and 6), see `parseProgram`.
-/

/-! ## Data model, from src/ast.rs -/

/-- Sign for size and time specifications (ast.rs `Sign`). -/
inductive Sign
  | None
  | Plus
  | Minus
deriving DecidableEq

/-- Size suffix for size specifications (ast.rs `SizeSuffix`). -/
inductive SizeSuffix
  | Blocks
  | Bytes
  | Words
  | Kb
  | Mb
  | Gb
deriving DecidableEq

/-- Size specification for the -size test (ast.rs `SizeSpec`); `value` is u64. -/
structure SizeSpec where
  sign : Sign
  value : Nat
  suffix : Option SizeSuffix
deriving DecidableEq

/-- Time specification for the time-based tests (ast.rs `TimeSpec`); `value` is u64. -/
structure TimeSpec where
  sign : Sign
  value : Nat
deriving DecidableEq

/-- File types for the -type test (ast.rs `FileType`). -/
inductive FileType
  | BlockFile
  | CharFile
  | Directory
  | NamedPipe
  | RegularFile
  | SymbolicLink
  | Socket
deriving DecidableEq

/-- Permission matching mode (ast.rs `PermPrefix`): all-mode is `-`, any-mode is `/`. -/
inductive PermPrefix
  | AllMode
  | AnyMode
deriving DecidableEq

/-- Symbolic permission principal (ast.rs `SymPrincipal`). -/
inductive SymPrincipal
  | User
  | Group
  | Other
  | All
deriving DecidableEq

/-- Symbolic permission operator (ast.rs `SymPermOperator`). -/
inductive SymPermOperator
  | Add
  | Remove
  | Set
deriving DecidableEq

/-- Symbolic permission privilege (ast.rs `SymPermPriv`). -/
inductive SymPermPriv
  | Read
  | Write
  | Execute
deriving DecidableEq

/-- Symbolic permission statement (ast.rs `SymPermStatement`). -/
structure SymPermStatement where
  principal : SymPrincipal
  operator : SymPermOperator
  privileges : List SymPermPriv
deriving DecidableEq

/-- Permission term (ast.rs `PermTerm`): numeric octal value or symbolic statements. -/
inductive PermTerm
  | Numeric (value : Nat)
  | Symbolic (statements : List SymPermStatement)
deriving DecidableEq

/-- Permission specification (ast.rs `PermSpec`).  The Rust field `prefix` is a
Lean keyword, so it is called `pfx` here. -/
structure PermSpec where
  pfx : Option PermPrefix
  term : PermTerm
deriving DecidableEq

/-- Test expressions (ast.rs `Test`).  The Rust variant `Type` is a Lean
keyword, so it is called `Typ` here. -/
inductive Test
  | Path (pattern : String)
  | Name (pattern : String)
  | Iname (pattern : String)
  | Regex (pattern : String)
  | True
  | False
  | Typ (fileType : FileType)
  | Size (sizeSpec : SizeSpec)
  | Empty
  | Amin (timeSpec : TimeSpec)
  | Atime (timeSpec : TimeSpec)
  | Ctime (timeSpec : TimeSpec)
  | Cmin (timeSpec : TimeSpec)
  | Mmin (timeSpec : TimeSpec)
  | Mtime (timeSpec : TimeSpec)
  | Anewer (filepath : String)
  | Cnewer (filepath : String)
  | Mnewer (filepath : String)
  | Newer (filepath : String)
  | Ipath (pattern : String)
  | Iregex (pattern : String)
  | User (username : String)
  | Group (groupname : String)
  | Uid (uid : Nat)
  | Gid (gid : Nat)
  | Perm (permSpec : PermSpec)
deriving DecidableEq

/-- Expressions (ast.rs `Expr`). -/
inductive Expr
  | Not (inner : Expr)
  | And (left right : Expr)
  | Or (left right : Expr)
  | Test (test : Test)
deriving DecidableEq

/-! ## Candidate entries and the metadata view (boundary contract, spec section 6) -/

/-- The metadata view of one filesystem object: byte length, owner ids, mode
bits, file kind, and the three timestamps (`none` models an `Err` from the
accessor, e.g. an unsupported timestamp on the platform). -/
structure Meta where
  len : Nat
  uid : Nat
  gid : Nat
  mode : Nat
  kind : FileType
  accessed : Option Nat
  created : Option Nat
  modified : Option Nat

/-- One candidate entry as the walker hands it to the evaluator.  `meta` is
`none` when `entry.metadata()` fails.  `ownerName` is the result of the
`entry.path().owner() ... name()` chain used by `match_user` and `match_group`:
`none` models any failure of that chain (the Rust code calls `.unwrap()` on
it).  `groupName` is the entry's owning group name as the spec describes it;
the Rust interpreter never actually consults it. -/
structure Entry where
  pathStr : String
  fileName : String
  meta : Option Meta
  ownerName : Option String
  groupName : Option String

/-- Ambient state of one evaluation: the clock (`SystemTime::now`, in seconds)
and the filesystem lookup used for reference files (`fs::metadata`). -/
structure Env where
  now : Nat
  fs : String → Option Meta

/-! ## Modelled glob engine (the `glob` crate, external collaborator)

Fragment: literal characters, `?` (any one character) and `*` (any sequence,
default `MatchOptions`, so `*` also crosses separators).  Character classes
are outside the fragment: a `[` or `]` makes `globParseL` fail, which the
interpreter maps to `false` exactly as it maps `Pattern::new` errors. -/

/-- One compiled glob atom. -/
inductive GAtom
  | lit (c : Char)
  | qm
  | star
deriving DecidableEq

/-- Compile one pattern character (fragment of `glob::Pattern::new`). -/
def gAtomOf (c : Char) : Option GAtom :=
  if c = '*' then some GAtom.star
  else if c = '?' then some GAtom.qm
  else if c = '[' ∨ c = ']' then none
  else some (GAtom.lit c)

/-- Compile a glob pattern (fragment of `glob::Pattern::new`). -/
def globParseL : List Char → Option (List GAtom)
  | [] => some []
  | c :: cs =>
    match gAtomOf c, globParseL cs with
    | some a, some r => some (a :: r)
    | _, _ => none

/-- Fuelled glob matcher; the fuel only needs to dominate the combined length
of the pattern and the target, see `globMatches`. -/
def globGo : Nat → List GAtom → List Char → Bool
  | 0, _, _ => false
  | _ + 1, [], s => s.isEmpty
  | f + 1, GAtom.lit c :: ps, s =>
    match s with
    | [] => false
    | d :: ds => c == d && globGo f ps ds
  | f + 1, GAtom.qm :: ps, s =>
    match s with
    | [] => false
    | _ :: ds => globGo f ps ds
  | f + 1, GAtom.star :: ps, s =>
    globGo f ps s ||
      (match s with
       | [] => false
       | _ :: ds => globGo f (GAtom.star :: ps) ds)

/-- `glob::Pattern::matches` on the fragment. -/
def globMatches (ps : List GAtom) (s : List Char) : Bool :=
  globGo (ps.length + s.length + 1) ps s

/-- Lower-case a character sequence (Rust `str::to_lowercase`, ASCII fragment). -/
def lowerList (cs : List Char) : List Char :=
  cs.map Char.toLower

/-! ## Modelled regex engine (the `regex` crate, external collaborator)

Fragment: literal characters, `.`, the positional assertions `^` and `$`,
top-level alternation `|` (binding loosest, as documented for the crate), and
the case-insensitivity flag written as a literal `(?i)` prefix.  Repetition
operators, classes and groups are outside the fragment: they make `reParse`
fail, which the interpreter maps to `false` exactly as it maps `Regex::new`
errors. -/

/-- One regex atom of the fragment. -/
inductive RAtom
  | ch (c : Char)
  | dot
  | caret
  | dollar
deriving DecidableEq

/-- A sequence of atoms (one alternation branch). -/
abbrev RSeq := List RAtom

/-- A compiled regex: the list of top-level alternation branches. -/
abbrev RE := List RSeq

/-- Compile one pattern character (fragment of `Regex::new`). -/
def rAtomOf (c : Char) : Option RAtom :=
  if c = '^' then some RAtom.caret
  else if c = '$' then some RAtom.dollar
  else if c = '.' then some RAtom.dot
  else if c = '(' ∨ c = ')' ∨ c = '*' ∨ c = '+' ∨ c = '?' ∨ c = '[' ∨ c = ']' ∨ c = '\\' ∨ c = '|' then none
  else some (RAtom.ch c)

/-- Split a character list on a separator character (used for top-level `|`
in regex patterns and `,` between symbolic permission statements). -/
def splitOnChar (sep : Char) : List Char → List (List Char)
  | [] => [[]]
  | c :: rest =>
    if c = sep then [] :: splitOnChar sep rest
    else
      match splitOnChar sep rest with
      | [] => [[c]]
      | s :: ss => (c :: s) :: ss

/-- Compile one alternation branch. -/
def seqParse : List Char → Option RSeq
  | [] => some []
  | c :: cs =>
    match rAtomOf c, seqParse cs with
    | some a, some r => some (a :: r)
    | _, _ => none

/-- Compile every alternation branch. -/
def altsParse : List (List Char) → Option RE
  | [] => some []
  | s :: ss =>
    match seqParse s, altsParse ss with
    | some a, some r => some (a :: r)
    | _, _ => none

/-- Compile a regex pattern (fragment of `Regex::new`): an optional `(?i)`
prefix selects case-insensitive matching, then the pattern is the `|`-separated
list of branches. -/
def reParse (cs : List Char) : Option (Bool × RE) :=
  if cs.take 4 = ['(', '?', 'i', ')'] then
    match altsParse (splitOnChar '|' (cs.drop 4)) with
    | some re => some (true, re)
    | none => none
  else
    match altsParse (splitOnChar '|' cs) with
    | some re => some (false, re)
    | none => none

/-- Character comparison under the case-insensitivity flag. -/
def rCharEq (ci : Bool) (c d : Char) : Bool :=
  if ci then c.toLower == d.toLower else c == d

/-- Run one branch from position `i` of `full`; atoms are matched strictly
left to right, so the result (the end position) is unique when it exists. -/
def seqMatch (full : List Char) (ci : Bool) : RSeq → Nat → Option Nat
  | [], i => some i
  | RAtom.caret :: rest, i => if i = 0 then seqMatch full ci rest i else none
  | RAtom.dollar :: rest, i => if i = full.length then seqMatch full ci rest i else none
  | RAtom.dot :: rest, i =>
    match full.get? i with
    | some _ => seqMatch full ci rest (i + 1)
    | none => none
  | RAtom.ch c :: rest, i =>
    match full.get? i with
    | some d => if rCharEq ci c d then seqMatch full ci rest (i + 1) else none
    | none => none

/-- `Regex::is_match` on the fragment: some branch matches starting at some
position of the haystack. -/
def reIsMatch (ci : Bool) (re : RE) (cs : List Char) : Bool :=
  (List.range (cs.length + 1)).any fun i =>
    re.any fun alt => (seqMatch cs ci alt i).isSome

/-! ## Unsigned integer parsing (Rust `str::parse` for u32/u64) -/

/-- Digits to value; `none` when empty or a non-digit appears. -/
def digitsVal : List Char → Option Nat
  | [] => none
  | cs => go cs 0
where
  go : List Char → Nat → Option Nat
    | [], acc => some acc
    | c :: rest, acc =>
      if c.isDigit then go rest (acc * 10 + (c.toNat - 48)) else none

/-- Rust `str::parse::<uN>`: optional leading `+`, then digits, bounded. -/
def parseUnsigned (bound : Nat) (s : String) : Option Nat :=
  let core := fun (cs : List Char) =>
    match digitsVal cs with
    | some v => if v < bound then some v else none
    | none => none
  match s.toList with
  | '+' :: rest => core rest
  | cs => core cs

/-- `str::parse::<u32>`. -/
def parseU32 (s : String) : Option Nat := parseUnsigned 4294967296 s

/-- `str::parse::<u64>`. -/
def parseU64 (s : String) : Option Nat := parseUnsigned 18446744073709551616 s

/-! ## Evaluator, from src/interpreter.rs

Functions keep the Rust names.  `Option Bool` results model functions that can
panic (`none` = panic); functions the Rust code makes total return `Bool`. -/

/-- interpreter.rs `match_glob_pattern`: compile the pattern; on a compile
error the match is `false`; when case-insensitive, the *target only* is
lower-cased before matching. -/
def match_glob_pattern (pattern target : String) (case_insensitive : Bool) : Bool :=
  match globParseL pattern.toList with
  | some glob_pattern =>
    if case_insensitive then globMatches glob_pattern (lowerList target.toList)
    else globMatches glob_pattern target.toList
  | none => false

/-- interpreter.rs `match_path`: glob against the full path string. -/
def match_path (pattern : String) (e : Entry) (case_insensitive : Bool) : Bool :=
  match_glob_pattern pattern e.pathStr case_insensitive

/-- interpreter.rs `match_name`: glob against the bare file name. -/
def match_name (pattern : String) (e : Entry) (case_insensitive : Bool) : Bool :=
  match_glob_pattern pattern e.fileName case_insensitive

/-- interpreter.rs `match_regex`: the pattern is wrapped as `^pattern$`
(`format!`) and handed to the engine; a compile error is a non-match. -/
def match_regex (pattern : String) (e : Entry) : Bool :=
  let anchored_pattern := '^' :: pattern.toList ++ ['$']
  match reParse anchored_pattern with
  | some (ci, regex) => reIsMatch ci regex e.pathStr.toList
  | none => false

/-- interpreter.rs `match_iregex`: the pattern is wrapped as `(?i)^pattern$`. -/
def match_iregex (pattern : String) (e : Entry) : Bool :=
  let case_insensitive_pattern := '(' :: '?' :: 'i' :: ')' :: '^' :: pattern.toList ++ ['$']
  match reParse case_insensitive_pattern with
  | some (ci, regex) => reIsMatch ci regex e.pathStr.toList
  | none => false

/-- interpreter.rs `compare_time_spec`: `duration_since` fails (test is
`false`) when the file time is in the future; otherwise whole elapsed units
are compared against the spec value according to the sign. -/
def compare_time_spec (now file_time : Nat) (time_spec : TimeSpec) (time_unit_seconds : Nat) : Bool :=
  if now < file_time then false
  else
    let time_ago := (now - file_time) / time_unit_seconds
    let target_time := time_spec.value
    match time_spec.sign with
    | Sign.None => time_ago == target_time
    | Sign.Plus => decide (time_ago > target_time)
    | Sign.Minus => decide (time_ago < target_time)

/-- interpreter.rs `compare_file_times`: all metadata or timestamp failures on
either side produce `false`; otherwise strict comparison of the two times. -/
def compare_file_times (env : Env) (e : Entry) (filepath : String)
    (time_getter : Meta → Option Nat) : Bool :=
  match e.meta with
  | none => false
  | some entry_metadata =>
    match time_getter entry_metadata with
    | none => false
    | some entry_time =>
      match env.fs filepath with
      | none => false
      | some reference_metadata =>
        match time_getter reference_metadata with
        | none => false
        | some reference_time => decide (entry_time > reference_time)

/-- interpreter.rs `match_type` (unix configuration): compare the
metadata-reported kind. -/
def match_type (file_type : FileType) (e : Entry) : Bool :=
  match e.meta with
  | none => false
  | some metadata => decide (metadata.kind = file_type)

/-- interpreter.rs `calculate_size_in_bytes`: unit multiplier times value.
The Rust multiplication is unchecked u64 arithmetic, hence the `% 2^64`. -/
def calculate_size_in_bytes (size_spec : SizeSpec) : Nat :=
  let multiplier : Nat :=
    match size_spec.suffix with
    | some SizeSuffix.Bytes => 1
    | some SizeSuffix.Words => 2
    | some SizeSuffix.Kb => 1024
    | some SizeSuffix.Mb => 1024 * 1024
    | some SizeSuffix.Gb => 1024 * 1024 * 1024
    | some SizeSuffix.Blocks => 512
    | none => 512
  (size_spec.value * multiplier) % 18446744073709551616

/-- interpreter.rs `match_size`. -/
def match_size (size_spec : SizeSpec) (e : Entry) : Bool :=
  match e.meta with
  | none => false
  | some metadata =>
    let file_size := metadata.len
    let target_size := calculate_size_in_bytes size_spec
    match size_spec.sign with
    | Sign.None => file_size == target_size
    | Sign.Plus => decide (file_size > target_size)
    | Sign.Minus => decide (file_size < target_size)

/-- interpreter.rs `match_empty`. -/
def match_empty (e : Entry) : Bool :=
  match e.meta with
  | none => false
  | some metadata => metadata.len == 0

/-- interpreter.rs `match_amin`. -/
def match_amin (env : Env) (time_spec : TimeSpec) (e : Entry) : Bool :=
  match e.meta with
  | none => false
  | some metadata =>
    match metadata.accessed with
    | none => false
    | some accessed_time => compare_time_spec env.now accessed_time time_spec 60

/-- interpreter.rs `match_atime`. -/
def match_atime (env : Env) (time_spec : TimeSpec) (e : Entry) : Bool :=
  match e.meta with
  | none => false
  | some metadata =>
    match metadata.accessed with
    | none => false
    | some accessed_time => compare_time_spec env.now accessed_time time_spec (24 * 60 * 60)

/-- interpreter.rs `match_ctime`. -/
def match_ctime (env : Env) (time_spec : TimeSpec) (e : Entry) : Bool :=
  match e.meta with
  | none => false
  | some metadata =>
    match metadata.created with
    | none => false
    | some created_time => compare_time_spec env.now created_time time_spec (24 * 60 * 60)

/-- interpreter.rs `match_cmin`. -/
def match_cmin (env : Env) (time_spec : TimeSpec) (e : Entry) : Bool :=
  match e.meta with
  | none => false
  | some metadata =>
    match metadata.created with
    | none => false
    | some created_time => compare_time_spec env.now created_time time_spec 60

/-- interpreter.rs `match_mmin`. -/
def match_mmin (env : Env) (time_spec : TimeSpec) (e : Entry) : Bool :=
  match e.meta with
  | none => false
  | some metadata =>
    match metadata.modified with
    | none => false
    | some modified_time => compare_time_spec env.now modified_time time_spec 60

/-- interpreter.rs `match_mtime`. -/
def match_mtime (env : Env) (time_spec : TimeSpec) (e : Entry) : Bool :=
  match e.meta with
  | none => false
  | some metadata =>
    match metadata.modified with
    | none => false
    | some modified_time => compare_time_spec env.now modified_time time_spec (24 * 60 * 60)

/-- interpreter.rs `match_anewer`. -/
def match_anewer (env : Env) (filepath : String) (e : Entry) : Bool :=
  compare_file_times env e filepath (fun metadata => metadata.accessed)

/-- interpreter.rs `match_cnewer`. -/
def match_cnewer (env : Env) (filepath : String) (e : Entry) : Bool :=
  compare_file_times env e filepath (fun metadata => metadata.created)

/-- interpreter.rs `match_mnewer`. -/
def match_mnewer (env : Env) (filepath : String) (e : Entry) : Bool :=
  compare_file_times env e filepath (fun metadata => metadata.modified)

/-- interpreter.rs `match_newer`: alias for `match_mnewer`. -/
def match_newer (env : Env) (filepath : String) (e : Entry) : Bool :=
  match_mnewer env filepath e

/-- interpreter.rs `match_user` (unix configuration).  A numeric argument is
compared against the uid.  Otherwise the code runs
`entry.path().owner().unwrap()` and `.name().unwrap().unwrap()` and compares
strings; every failure of that chain is an unguarded `unwrap`, i.e. a panic,
modelled by `none`. -/
def match_user (username : String) (e : Entry) : Option Bool :=
  match e.meta with
  | none => some false
  | some metadata =>
    match parseU32 username with
    | some target_uid => some (metadata.uid == target_uid)
    | none =>
      match e.ownerName with
      | some o => some (username == o)
      | none => none

/-- interpreter.rs `match_group` (unix configuration).  A numeric argument is
compared against the gid.  Otherwise the code runs
`entry.path().owner().unwrap()` - the file's *owner user* name, not its group
name - and compares strings; a failed resolution is an unguarded `unwrap`,
i.e. a panic, modelled by `none`. -/
def match_group (groupname : String) (e : Entry) : Option Bool :=
  match e.meta with
  | none => some false
  | some metadata =>
    match parseU32 groupname with
    | some target_gid => some (metadata.gid == target_gid)
    | none =>
      match e.ownerName with
      | some g => some (groupname == g)
      | none => none

/-- interpreter.rs `match_uid`. -/
def match_uid (target_uid : Nat) (e : Entry) : Bool :=
  match e.meta with
  | none => false
  | some metadata => metadata.uid == target_uid

/-- interpreter.rs `match_gid`. -/
def match_gid (target_gid : Nat) (e : Entry) : Bool :=
  match e.meta with
  | none => false
  | some metadata => metadata.gid == target_gid

/-- interpreter.rs `match_numeric_perm`. -/
def match_numeric_perm (target_perms file_perms : Nat) (pfx : Option PermPrefix) : Bool :=
  match pfx with
  | none => file_perms == target_perms
  | some PermPrefix.AllMode => (file_perms &&& target_perms) == target_perms
  | some PermPrefix.AnyMode => (file_perms &&& target_perms) != 0

/-- interpreter.rs `get_permission_mask`: union of the positioned permission
bits for every listed privilege. -/
def get_permission_mask (principal : SymPrincipal) (privileges : List SymPermPriv) : Nat :=
  privileges.foldl
    (fun mask privilege =>
      let perm_bit : Nat :=
        match privilege with
        | SymPermPriv.Read => 0o4
        | SymPermPriv.Write => 0o2
        | SymPermPriv.Execute => 0o1
      match principal with
      | SymPrincipal.User => mask ||| (perm_bit <<< 6)
      | SymPrincipal.Group => mask ||| (perm_bit <<< 3)
      | SymPrincipal.Other => mask ||| perm_bit
      | SymPrincipal.All => mask ||| (perm_bit <<< 6) ||| (perm_bit <<< 3) ||| perm_bit)
    0

/-- interpreter.rs `get_principal_mask`. -/
def get_principal_mask (principal : SymPrincipal) : Nat :=
  match principal with
  | SymPrincipal.User => 0o700
  | SymPrincipal.Group => 0o070
  | SymPrincipal.Other => 0o007
  | SymPrincipal.All => 0o777

/-- interpreter.rs `symbolic_to_numeric`: the for-loop over the statements,
threading the accumulated value; `!mask` on u32 is `4294967295 ^^^ mask`. -/
def symbolic_to_numeric : List SymPermStatement → Nat → Nat
  | [], result_perms => result_perms
  | statement :: rest, result_perms =>
    let perm_mask := get_permission_mask statement.principal statement.privileges
    match statement.operator with
    | SymPermOperator.Add =>
      symbolic_to_numeric rest (result_perms ||| perm_mask)
    | SymPermOperator.Remove =>
      symbolic_to_numeric rest (result_perms &&& (4294967295 ^^^ perm_mask))
    | SymPermOperator.Set =>
      let principal_mask := get_principal_mask statement.principal
      symbolic_to_numeric rest ((result_perms &&& (4294967295 ^^^ principal_mask)) ||| perm_mask)

/-- interpreter.rs `match_symbolic_perm`. -/
def match_symbolic_perm (statements : List SymPermStatement) (file_perms : Nat)
    (pfx : Option PermPrefix) : Bool :=
  let target_perms := symbolic_to_numeric statements file_perms
  match_numeric_perm target_perms file_perms pfx

/-- interpreter.rs `match_perm` (unix configuration): low nine mode bits. -/
def match_perm (perm_spec : PermSpec) (e : Entry) : Bool :=
  match e.meta with
  | none => false
  | some metadata =>
    let file_perms := metadata.mode &&& 0o777
    match perm_spec.term with
    | PermTerm.Numeric target_perms =>
      match_numeric_perm target_perms file_perms perm_spec.pfx
    | PermTerm.Symbolic statements =>
      match_symbolic_perm statements file_perms perm_spec.pfx

/-- interpreter.rs `evaluate_test`: dispatch on the test variant.  The result
is `none` exactly when the dispatched matcher panics (only `match_user` and
`match_group` can). -/
def evaluate_test (env : Env) (test : Test) (e : Entry) : Option Bool :=
  match test with
  | Test.Path pattern => some (match_path pattern e false)
  | Test.Name pattern => some (match_name pattern e false)
  | Test.Iname pattern => some (match_name pattern e true)
  | Test.Regex pattern => some (match_regex pattern e)
  | Test.True => some true
  | Test.False => some false
  | Test.Typ file_type => some (match_type file_type e)
  | Test.Size size_spec => some (match_size size_spec e)
  | Test.Empty => some (match_empty e)
  | Test.Amin time_spec => some (match_amin env time_spec e)
  | Test.Atime time_spec => some (match_atime env time_spec e)
  | Test.Ctime time_spec => some (match_ctime env time_spec e)
  | Test.Cmin time_spec => some (match_cmin env time_spec e)
  | Test.Mmin time_spec => some (match_mmin env time_spec e)
  | Test.Mtime time_spec => some (match_mtime env time_spec e)
  | Test.Anewer filepath => some (match_anewer env filepath e)
  | Test.Cnewer filepath => some (match_cnewer env filepath e)
  | Test.Mnewer filepath => some (match_mnewer env filepath e)
  | Test.Newer filepath => some (match_newer env filepath e)
  | Test.Ipath pattern => some (match_path pattern e true)
  | Test.Iregex pattern => some (match_iregex pattern e)
  | Test.User username => match_user username e
  | Test.Group groupname => match_group groupname e
  | Test.Uid uid => some (match_uid uid e)
  | Test.Gid gid => some (match_gid gid e)
  | Test.Perm perm_spec => some (match_perm perm_spec e)

/-- interpreter.rs `Interpreter::evaluate`: `!`, `&&` and `||` with the Rust
short-circuit order; a panic (`none`) in an evaluated operand propagates. -/
def evaluate (env : Env) (x : Expr) (e : Entry) : Option Bool :=
  match x with
  | Expr.Not inner => (evaluate env inner e).map (fun b => !b)
  | Expr.And left right =>
    match evaluate env left e with
    | none => none
    | some false => some false
    | some true => evaluate env right e
  | Expr.Or left right =>
    match evaluate env left e with
    | none => none
    | some true => some true
    | some false => evaluate env right e
  | Expr.Test test => evaluate_test env test e

/-- `Interpreter::evaluate` instrumented with the list of test leaves it
evaluates, in order; the first component agrees with `evaluate` (proved in
the theorems below).  This makes the evaluation order of `&&`/`||`
observable: a right operand only contributes to the trace when the Rust
operator would evaluate it. -/
def evalTrace (env : Env) (x : Expr) (e : Entry) : Option Bool × List Test :=
  match x with
  | Expr.Not inner =>
    let (r, t) := evalTrace env inner e
    (r.map (fun b => !b), t)
  | Expr.And left right =>
    match evalTrace env left e with
    | (none, t) => (none, t)
    | (some false, t) => (some false, t)
    | (some true, t) =>
      let (r2, t2) := evalTrace env right e
      (r2, t ++ t2)
  | Expr.Or left right =>
    match evalTrace env left e with
    | (none, t) => (none, t)
    | (some true, t) => (some true, t)
    | (some false, t) =>
      let (r2, t2) := evalTrace env right e
      (r2, t ++ t2)
  | Expr.Test test => (evaluate_test env test e, [test])

/-! ## Spec-side definitions

Each definition below follows the wording of the specification (not the Rust
code); the theorems compare them with the source-embedded functions. -/

/-- Modelled from the spec: "Iname/Ipath lower-case both sides before
matching (case-insensitive)" - the pattern and the target are both
lower-cased before the glob match. -/
def specCaseInsensitiveGlob (pattern target : String) : Bool :=
  match globParseL (lowerList pattern.toList) with
  | some g => globMatches g (lowerList target.toList)
  | none => false

/-- Modelled from the spec: the case-insensitive name test with both sides
lower-cased. -/
def specInameTest (pattern : String) (e : Entry) : Bool :=
  specCaseInsensitiveGlob pattern e.fileName

/-- Modelled from the spec: the case-insensitive path test with both sides
lower-cased. -/
def specIpathTest (pattern : String) (e : Entry) : Bool :=
  specCaseInsensitiveGlob pattern e.pathStr

/-- A branch of a compiled regex matches a string *in full*: it matches from
position 0 and the match ends exactly at the end of the string. -/
def fullMatchRE (ci : Bool) (re : RE) (cs : List Char) : Bool :=
  re.any fun alt => seqMatch cs ci alt 0 == some cs.length

/-- Modelled from the spec: "Regex ... anchor the pattern to match the
*entire* path" - a match of the raw pattern that covers the whole path
string. -/
def specFullPathRegexMatch (pattern s : String) : Bool :=
  match reParse pattern.toList with
  | some (ci, re) => fullMatchRE ci re s.toList
  | none => false

/-- Modelled from the spec: the same full-path match with case-insensitive
matching additionally applied (`Iregex`). -/
def specFullPathIregexMatch (pattern s : String) : Bool :=
  match reParse pattern.toList with
  | some (_, re) => fullMatchRE true re s.toList
  | none => false

/-- Modelled from the spec: "`User/Group`: if the supplied string parses as an
unsigned integer, compare directly against the numeric owner/group id;
otherwise resolve the *candidate file's* owning user/group name and compare by
string equality" - the Group instance, using the entry's owning *group* name. -/
def specGroupTest (groupname : String) (e : Entry) : Bool :=
  match e.meta with
  | none => false
  | some metadata =>
    match parseU32 groupname with
    | some target_gid => metadata.gid == target_gid
    | none =>
      match e.groupName with
      | some gn => groupname == gn
      | none => false

/-- Modelled from the spec: the time-test comparison - "compute
`elapsed = now − file_timestamp` (if `file_timestamp` is in the future, the
test is false ...); convert to whole units by integer division; compare
against the spec's value using the sign". -/
def specTimeTest (now t v : Nat) (sign : Sign) (unit : Nat) : Bool :=
  if t > now then false
  else
    let units := (now - t) / unit
    match sign with
    | Sign.None => units == v
    | Sign.Plus => decide (units > v)
    | Sign.Minus => decide (units < v)

/-- The unit multiplier of a size suffix as the spec tabulates it (block=512,
byte=1, word=2, KiB=1024, MiB=1024^2, GiB=1024^3; default blocks). -/
def sizeMultiplier (suffix : Option SizeSuffix) : Nat :=
  match suffix with
  | some SizeSuffix.Bytes => 1
  | some SizeSuffix.Words => 2
  | some SizeSuffix.Kb => 1024
  | some SizeSuffix.Mb => 1024 * 1024
  | some SizeSuffix.Gb => 1024 * 1024 * 1024
  | some SizeSuffix.Blocks => 512
  | none => 512

/-- Modelled from the spec: "compute target bytes = value × unit-multiplier
... Compare file byte length against target using the sign" - with exact
(unbounded) arithmetic. -/
def specSizeTest (size_spec : SizeSpec) (len : Nat) : Bool :=
  let target := size_spec.value * sizeMultiplier size_spec.suffix
  match size_spec.sign with
  | Sign.None => len == target
  | Sign.Plus => decide (len > target)
  | Sign.Minus => decide (len < target)

/-- Modelled from the spec: one step of the symbolic-permission fold - "`add`
ORs in the computed mask for principal × privileges; `remove` ANDs out that
mask; `set` clears the full principal's bit field then ORs in the mask". -/
def specApplyStatement (acc : Nat) (s : SymPermStatement) : Nat :=
  match s.operator with
  | SymPermOperator.Add => acc ||| get_permission_mask s.principal s.privileges
  | SymPermOperator.Remove => acc &&& (4294967295 ^^^ get_permission_mask s.principal s.privileges)
  | SymPermOperator.Set =>
    (acc &&& (4294967295 ^^^ get_principal_mask s.principal)) ||| get_permission_mask s.principal s.privileges

/-! ## Concrete fixtures used by the closed theorems -/

/-- A metadata record: 1024-byte regular file, uid 1000, gid 100, mode 644,
all three timestamps at the epoch. -/
def metaStd : Meta :=
  { len := 1024, uid := 1000, gid := 100, mode := 0o644, kind := FileType.RegularFile,
    accessed := some 0, created := some 0, modified := some 0 }

/-- A metadata record of byte length 0 (otherwise as `metaStd`). -/
def metaZero : Meta :=
  { metaStd with len := 0 }

/-- An environment: the clock reads 1800 seconds, no reference path resolves. -/
def envT : Env :=
  { now := 1800, fs := fun _ => none }

/-- An entry whose owner resolves to user name "alice" and whose owning group
name is "staff". -/
def entryStd : Entry :=
  { pathStr := "/tmp/t", fileName := "t", meta := some metaStd,
    ownerName := some "alice", groupName := some "staff" }

/-- An entry whose owner-name resolution fails (the `unwrap` chain in
`match_user`/`match_group` panics on it). -/
def entryNoOwner : Entry :=
  { entryStd with ownerName := none }

/-- An entry named FOO.TXT (upper-case), for the case-insensitivity tests. -/
def entryFOO : Entry :=
  { entryStd with pathStr := "/tmp/FOO.TXT", fileName := "FOO.TXT" }

/-- An entry whose full path string is "ab", for the regex anchoring tests. -/
def entryAB : Entry :=
  { entryStd with pathStr := "ab", fileName := "ab" }

/-- An entry of byte length 0, for the size overflow tests. -/
def entryZeroLen : Entry :=
  { entryStd with meta := some metaZero }

/-! ## Compile pipeline, from src/parser.rs and src/main.rs

The grammar file `grammar.pest` is not among the sources, so the pest stage
is modelled from the spec: grammar of section 4.1 (OrExpr / AndExpr with
implicit conjunction / unary not / parenthesised terms), token surface of
section 6, and the rule of section 4.1 that numeric-looking arguments are
validated by an integer parse producing an `InvalidNumber` diagnostic naming
the offending token.  A token stream the grammar rejects is a
`CompileErr.grammarReject`: `main.rs` lines 78-79 call `.expect` on that
result, i.e. the process panics.  An `InvalidNumber` raised while building
the AST (parser.rs `parse_test`/`parse_sizespec`/`parse_timespec`/
`parse_perm_term`) reaches main's `Err` arm and is reported gracefully. -/

/-- parser.rs `ParseError`. -/
inductive ParseError
  | UnexpectedRule (expected found : String)
  | InvalidNumber (s : String)
deriving DecidableEq

/-- Failure of the two-stage compile: a pest-level grammar rejection, or a
structured error from the AST builder. -/
inductive CompileErr
  | grammarReject
  | astErr (e : ParseError)
deriving DecidableEq

/-- Outcome of the full pipeline as main.rs drives it. -/
inductive CompileOutcome
  | panicked
  | compileError (e : ParseError)
  | ok (ast : Expr)
deriving DecidableEq

/-- Strip a structural sign prefix from a size/time argument (spec section
4.1: sign prefixes are part of the grammar). -/
def splitSignTok (cs : List Char) : Sign × List Char :=
  match cs with
  | '+' :: rest => (Sign.Plus, rest)
  | '-' :: rest => (Sign.Minus, rest)
  | _ => (Sign.None, cs)

/-- Modelled from the spec: the `-type` argument letters of section 6. -/
def parseTypeTok (s : String) : Option FileType :=
  if s = "b" then some FileType.BlockFile
  else if s = "c" then some FileType.CharFile
  else if s = "d" then some FileType.Directory
  else if s = "p" then some FileType.NamedPipe
  else if s = "f" then some FileType.RegularFile
  else if s = "l" then some FileType.SymbolicLink
  else if s = "s" then some FileType.Socket
  else none

/-- Modelled from the spec: the size suffix letters of section 6. -/
def parseSuffixChar (c : Char) : Option SizeSuffix :=
  if c = 'b' then some SizeSuffix.Blocks
  else if c = 'c' then some SizeSuffix.Bytes
  else if c = 'w' then some SizeSuffix.Words
  else if c = 'k' then some SizeSuffix.Kb
  else if c = 'M' then some SizeSuffix.Mb
  else if c = 'G' then some SizeSuffix.Gb
  else none

/-- Modelled from the spec: a time argument `[+|-]<n>`; a numeric part that
fails the u64 parse is an `InvalidNumber` naming it (parser.rs
`parse_timespec`). -/
def parseTimeTok (w : String) : Except CompileErr TimeSpec :=
  let (sign, rest) := splitSignTok w.toList
  if rest.isEmpty then Except.error CompileErr.grammarReject
  else
    match parseU64 (String.mk rest) with
    | some value => Except.ok { sign := sign, value := value }
    | none => Except.error (CompileErr.astErr (ParseError.InvalidNumber (String.mk rest)))

/-- Modelled from the spec: a size argument `[+|-]<n>[b|c|w|k|M|G]`
(parser.rs `parse_sizespec` for the number validation). -/
def parseSizeTok (w : String) : Except CompileErr SizeSpec :=
  let (sign, rest) := splitSignTok w.toList
  let (numPart, suffix) :=
    match rest.getLast? with
    | some c =>
      match parseSuffixChar c with
      | some sfx => (rest.dropLast, some sfx)
      | none => (rest, (none : Option SizeSuffix))
    | none => (rest, none)
  if numPart.isEmpty then Except.error CompileErr.grammarReject
  else
    match parseU64 (String.mk numPart) with
    | some value => Except.ok { sign := sign, value := value, suffix := suffix }
    | none => Except.error (CompileErr.astErr (ParseError.InvalidNumber (String.mk numPart)))

/-- Octal digits to value; `none` when empty or a character is not in 0..7
(Rust `u32::from_str_radix(_, 8)` rejects it, parser.rs `parse_perm_term`). -/
def octalVal : List Char → Option Nat
  | [] => none
  | cs => go cs 0
where
  go : List Char → Nat → Option Nat
    | [], acc => some acc
    | c :: rest, acc =>
      if '0' ≤ c ∧ c ≤ '7' then go rest (acc * 8 + (c.toNat - 48)) else none

/-- Modelled from the spec: one symbolic permission statement
`{principal}{operator}{privileges}`. -/
def parseSymStmt (cs : List Char) : Option SymPermStatement :=
  match cs with
  | p :: o :: privs =>
    let principal :=
      if p = 'u' then some SymPrincipal.User
      else if p = 'g' then some SymPrincipal.Group
      else if p = 'o' then some SymPrincipal.Other
      else if p = 'a' then some SymPrincipal.All
      else none
    let operator :=
      if o = '+' then some SymPermOperator.Add
      else if o = '-' then some SymPermOperator.Remove
      else if o = '=' then some SymPermOperator.Set
      else none
    let privList := privs.mapM fun c =>
      if c = 'r' then some SymPermPriv.Read
      else if c = 'w' then some SymPermPriv.Write
      else if c = 'x' then some SymPermPriv.Execute
      else none
    match principal, operator, privList with
    | some pr, some op, some pv => some { principal := pr, operator := op, privileges := pv }
    | _, _, _ => none
  | _ => none

/-- Modelled from the spec: a `-perm` argument `[-|/]<octal|symbolic>`; an
all-digit term that is not valid octal is an `InvalidNumber` (parser.rs
`parse_perm_term`). -/
def parsePermTok (w : String) : Except CompileErr PermSpec :=
  let (pfx, rest) :=
    match w.toList with
    | '-' :: r => (some PermPrefix.AllMode, r)
    | '/' :: r => (some PermPrefix.AnyMode, r)
    | cs => ((none : Option PermPrefix), cs)
  if rest.isEmpty then Except.error CompileErr.grammarReject
  else if rest.all Char.isDigit then
    match octalVal rest with
    | some v => Except.ok { pfx := pfx, term := PermTerm.Numeric v }
    | none => Except.error (CompileErr.astErr (ParseError.InvalidNumber (String.mk rest)))
  else
    match (splitOnChar ',' rest).mapM parseSymStmt with
    | some stmts => Except.ok { pfx := pfx, term := PermTerm.Symbolic stmts }
    | none => Except.error CompileErr.grammarReject

/-- Take one argument token; its absence is a grammar rejection (missing
required argument). -/
def takeArg (rest : List String) : Except CompileErr (String × List String) :=
  match rest with
  | a :: r => Except.ok (a, r)
  | [] => Except.error CompileErr.grammarReject

/-- Modelled from the spec: one test keyword with its argument (section 6
surface).  An unknown keyword is a grammar rejection.  The `-uid`/`-gid`
argument is validated by the u32 parse of parser.rs `parse_test`, producing
`InvalidNumber` with the offending token text. -/
def parseTestTok (kw : String) (rest : List String) : Except CompileErr (Test × List String) :=
  if kw = "-true" then Except.ok (Test.True, rest)
  else if kw = "-false" then Except.ok (Test.False, rest)
  else if kw = "-empty" then Except.ok (Test.Empty, rest)
  else if kw = "-path" then (takeArg rest).map fun (a, r) => (Test.Path a, r)
  else if kw = "-ipath" then (takeArg rest).map fun (a, r) => (Test.Ipath a, r)
  else if kw = "-name" then (takeArg rest).map fun (a, r) => (Test.Name a, r)
  else if kw = "-iname" then (takeArg rest).map fun (a, r) => (Test.Iname a, r)
  else if kw = "-regex" then (takeArg rest).map fun (a, r) => (Test.Regex a, r)
  else if kw = "-iregex" then (takeArg rest).map fun (a, r) => (Test.Iregex a, r)
  else if kw = "-anewer" then (takeArg rest).map fun (a, r) => (Test.Anewer a, r)
  else if kw = "-cnewer" then (takeArg rest).map fun (a, r) => (Test.Cnewer a, r)
  else if kw = "-mnewer" then (takeArg rest).map fun (a, r) => (Test.Mnewer a, r)
  else if kw = "-newer" then (takeArg rest).map fun (a, r) => (Test.Newer a, r)
  else if kw = "-user" then (takeArg rest).map fun (a, r) => (Test.User a, r)
  else if kw = "-group" then (takeArg rest).map fun (a, r) => (Test.Group a, r)
  else if kw = "-type" then do
    let (a, r) ← takeArg rest
    match parseTypeTok a with
    | some ft => Except.ok (Test.Typ ft, r)
    | none => Except.error CompileErr.grammarReject
  else if kw = "-uid" then do
    let (a, r) ← takeArg rest
    match parseU32 a with
    | some n => Except.ok (Test.Uid n, r)
    | none => Except.error (CompileErr.astErr (ParseError.InvalidNumber a))
  else if kw = "-gid" then do
    let (a, r) ← takeArg rest
    match parseU32 a with
    | some n => Except.ok (Test.Gid n, r)
    | none => Except.error (CompileErr.astErr (ParseError.InvalidNumber a))
  else if kw = "-size" then do
    let (a, r) ← takeArg rest
    (parseSizeTok a).map fun s => (Test.Size s, r)
  else if kw = "-amin" then do
    let (a, r) ← takeArg rest
    (parseTimeTok a).map fun t => (Test.Amin t, r)
  else if kw = "-atime" then do
    let (a, r) ← takeArg rest
    (parseTimeTok a).map fun t => (Test.Atime t, r)
  else if kw = "-cmin" then do
    let (a, r) ← takeArg rest
    (parseTimeTok a).map fun t => (Test.Cmin t, r)
  else if kw = "-ctime" then do
    let (a, r) ← takeArg rest
    (parseTimeTok a).map fun t => (Test.Ctime t, r)
  else if kw = "-mmin" then do
    let (a, r) ← takeArg rest
    (parseTimeTok a).map fun t => (Test.Mmin t, r)
  else if kw = "-mtime" then do
    let (a, r) ← takeArg rest
    (parseTimeTok a).map fun t => (Test.Mtime t, r)
  else if kw = "-perm" then do
    let (a, r) ← takeArg rest
    (parsePermTok a).map fun p => (Test.Perm p, r)
  else Except.error CompileErr.grammarReject

mutual

/-- Modelled from the spec grammar: `OrExpr := AndExpr ("-or" AndExpr)*`. -/
def parseOrF : Nat → List String → Except CompileErr (Expr × List String)
  | 0, _ => Except.error CompileErr.grammarReject
  | f + 1, toks => do
    let (left, rest) ← parseAndF f toks
    parseOrLoop f left rest

/-- The `("-or" AndExpr)*` loop, folding left-associatively. -/
def parseOrLoop : Nat → Expr → List String → Except CompileErr (Expr × List String)
  | 0, _, _ => Except.error CompileErr.grammarReject
  | f + 1, left, toks =>
    match toks with
    | "-or" :: rest => do
      let (right, rest2) ← parseAndF f rest
      parseOrLoop f (Expr.Or left right) rest2
    | _ => Except.ok (left, toks)

/-- Modelled from the spec grammar: `AndExpr := UnaryExpr (["-and"]
UnaryExpr)*` - adjacency implies AND. -/
def parseAndF : Nat → List String → Except CompileErr (Expr × List String)
  | 0, _ => Except.error CompileErr.grammarReject
  | f + 1, toks => do
    let (left, rest) ← parseUnaryF f toks
    parseAndLoop f left rest

/-- The `(["-and"] UnaryExpr)*` loop, folding left-associatively. -/
def parseAndLoop : Nat → Expr → List String → Except CompileErr (Expr × List String)
  | 0, _, _ => Except.error CompileErr.grammarReject
  | f + 1, left, toks =>
    match toks with
    | [] => Except.ok (left, [])
    | ")" :: _ => Except.ok (left, toks)
    | "-or" :: _ => Except.ok (left, toks)
    | "-and" :: rest => do
      let (right, rest2) ← parseUnaryF f rest
      parseAndLoop f (Expr.And left right) rest2
    | _ => do
      let (right, rest2) ← parseUnaryF f toks
      parseAndLoop f (Expr.And left right) rest2

/-- Modelled from the spec grammar: `UnaryExpr := ("-not" | "!")? Term`. -/
def parseUnaryF : Nat → List String → Except CompileErr (Expr × List String)
  | 0, _ => Except.error CompileErr.grammarReject
  | f + 1, toks =>
    match toks with
    | "-not" :: rest => (parseTermF f rest).map fun (x, r) => (Expr.Not x, r)
    | "!" :: rest => (parseTermF f rest).map fun (x, r) => (Expr.Not x, r)
    | _ => parseTermF f toks

/-- Modelled from the spec grammar: `Term := Test | "(" Expr ")"`; a missing
closing parenthesis is a grammar rejection. -/
def parseTermF : Nat → List String → Except CompileErr (Expr × List String)
  | 0, _ => Except.error CompileErr.grammarReject
  | f + 1, toks =>
    match toks with
    | "(" :: rest => do
      let (x, rest2) ← parseOrF f rest
      match rest2 with
      | ")" :: rest3 => Except.ok (x, rest3)
      | _ => Except.error CompileErr.grammarReject
    | kw :: rest => (parseTestTok kw rest).map fun (t, r) => (Expr.Test t, r)
    | [] => Except.error CompileErr.grammarReject

end

/-- The grammar parse plus AST build of the whole program: every token must
be consumed. -/
def parseProgram (toks : List String) : Except CompileErr Expr :=
  match parseOrF (4 * toks.length + 8) toks with
  | Except.ok (x, []) => Except.ok x
  | Except.ok (_, _ :: _) => Except.error CompileErr.grammarReject
  | Except.error err => Except.error err

/-- main.rs lines 75-94: an empty expression becomes "-true"; the grammar
parse result is unwrapped with `.expect` (a grammar rejection panics the
process, main.rs 78-79); an AST-build error reaches the graceful `Err` arm. -/
def mainCompile (tokens : List String) : CompileOutcome :=
  let tokens := if tokens.isEmpty then ["-true"] else tokens
  match parseProgram tokens with
  | Except.error CompileErr.grammarReject => CompileOutcome.panicked
  | Except.error (CompileErr.astErr e) => CompileOutcome.compileError e
  | Except.ok ast => CompileOutcome.ok ast

/-! ## Helper lemmas -/

/-- Atoms of a branch run strictly left to right, so matching a concatenation
is matching the first part and feeding its end position to the second. -/
theorem seqMatch_append (full : List Char) (ci : Bool) (xs ys : RSeq) :
    ∀ i, seqMatch full ci (xs ++ ys) i = (seqMatch full ci xs i).bind (seqMatch full ci ys) := by
  induction xs with
  | nil => intro i; simp [seqMatch]
  | cons a xs ih =>
    intro i
    cases a with
    | ch c =>
      simp only [List.cons_append, seqMatch]
      cases full.get? i with
      | none => simp
      | some d =>
        show (if rCharEq ci c d = true then seqMatch full ci (xs ++ ys) (i + 1) else none)
            = (if rCharEq ci c d = true then seqMatch full ci xs (i + 1) else none).bind (seqMatch full ci ys)
        split <;> simp [ih]
    | dot =>
      simp only [List.cons_append, seqMatch]
      cases full.get? i with
      | none => simp
      | some d => simp [ih]
    | caret =>
      simp only [List.cons_append, seqMatch]
      split <;> simp [ih]
    | dollar =>
      simp only [List.cons_append, seqMatch]
      split <;> simp [ih]

/-- Splitting on a character that does not occur returns the whole list. -/
theorem splitOnChar_of_not_mem (sep : Char) : ∀ cs : List Char, sep ∉ cs → splitOnChar sep cs = [cs] := by
  intro cs
  induction cs with
  | nil => intro _; rfl
  | cons c rest ih =>
    intro h
    have hc : ¬ c = sep := by
      intro hh
      exact h (by simp [hh])
    have hrest : splitOnChar sep rest = [rest] := ih (by
      intro hm
      exact h (List.mem_cons_of_mem _ hm))
    simp [splitOnChar, hc, hrest]

/-- Branch compilation distributes over concatenation. -/
theorem seqParse_append (xs ys : List Char) :
    seqParse (xs ++ ys) = (seqParse xs).bind fun a => (seqParse ys).map fun b => a ++ b := by
  induction xs with
  | nil => simp [seqParse]
  | cons c xs ih =>
    simp only [List.cons_append, seqParse, List.append_eq]
    rw [ih]
    cases rAtomOf c <;> cases seqParse xs <;> cases seqParse ys <;> simp

/-- An is-match of a single branch of the shape `^ r $` is exactly a match of
`r` that starts at position 0 and covers the whole haystack. -/
theorem anchored_reIsMatch (ci : Bool) (r : RSeq) (cs : List Char) :
    reIsMatch ci [RAtom.caret :: (r ++ [RAtom.dollar])] cs
      = (seqMatch cs ci r 0 == some cs.length) := by
  cases hb : (seqMatch cs ci r 0 == some cs.length) with
  | true =>
    have hb' : seqMatch cs ci r 0 = some cs.length := eq_of_beq hb
    unfold reIsMatch
    apply List.any_eq_true.mpr
    refine ⟨0, List.mem_range.mpr (Nat.succ_pos _), ?_⟩
    simp only [List.any_cons, List.any_nil, Bool.or_false]
    simp only [seqMatch, if_pos rfl]
    rw [seqMatch_append, hb']
    simp [seqMatch]
  | false =>
    unfold reIsMatch
    apply List.any_eq_false.mpr
    intro i _
    simp only [List.any_cons, List.any_nil, Bool.or_false]
    by_cases hi0 : i = 0
    · subst hi0
      simp only [seqMatch, if_pos rfl]
      rw [seqMatch_append]
      cases hsm : seqMatch cs ci r 0 with
      | none => simp
      | some j =>
        have hj : ¬ j = cs.length := by
          intro hh
          rw [hsm, hh] at hb
          simp at hb
        simp [seqMatch, hj]
    · simp [seqMatch, hi0]

/-- The Rust statement loop of `symbolic_to_numeric` is the left fold of the
spec's per-statement update. -/
theorem symbolic_to_numeric_eq_foldl :
    ∀ (stmts : List SymPermStatement) (acc : Nat),
      symbolic_to_numeric stmts acc = List.foldl specApplyStatement acc stmts := by
  intro stmts
  induction stmts with
  | nil => intro acc; rfl
  | cons s rest ih =>
    intro acc
    cases hop : s.operator <;>
      simp [symbolic_to_numeric, List.foldl, specApplyStatement, hop, ih]

/-- The instrumented evaluator computes the same boolean (or panic) as
`Interpreter::evaluate`. -/
theorem evalTrace_fst (env : Env) (e : Entry) :
    ∀ x : Expr, (evalTrace env x e).1 = evaluate env x e := by
  intro x
  induction x with
  | Not inner ih =>
    cases hp : evalTrace env inner e with
    | mk r t =>
      have hr : r = evaluate env inner e := by rw [← ih, hp]
      simp [evalTrace, evaluate, hp, ← hr]
  | And l rgt ihl ihr =>
    cases hp : evalTrace env l e with
    | mk rl tl =>
      have hl : rl = evaluate env l e := by rw [← ihl, hp]
      cases rl with
      | none => simp [evalTrace, evaluate, hp, ← hl]
      | some b =>
        cases b with
        | false => simp [evalTrace, evaluate, hp, ← hl]
        | true =>
          cases hq : evalTrace env rgt e with
          | mk rr tr =>
            have hr : rr = evaluate env rgt e := by rw [← ihr, hq]
            simp [evalTrace, evaluate, hp, hq, ← hl, ← hr]
  | Or l rgt ihl ihr =>
    cases hp : evalTrace env l e with
    | mk rl tl =>
      have hl : rl = evaluate env l e := by rw [← ihl, hp]
      cases rl with
      | none => simp [evalTrace, evaluate, hp, ← hl]
      | some b =>
        cases b with
        | true => simp [evalTrace, evaluate, hp, ← hl]
        | false =>
          cases hq : evalTrace env rgt e with
          | mk rr tr =>
            have hr : rr = evaluate env rgt e := by rw [← ihr, hq]
            simp [evalTrace, evaluate, hp, hq, ← hl, ← hr]
  | Test t => rfl

/-! ## Claims -/

/-- Claim C1.  The claim states that evaluation never raises or panics and
that an unresolvable owner/group name contributes `false`.  The code violates
it: for a non-numeric `-user`/`-group` argument, `match_user`/`match_group`
unwrap the owner-name resolution, so an entry whose owner name cannot be
resolved makes the evaluator panic (result `none`) instead of yielding
`false`.  Every other unresolvable test does degrade to `false` as claimed:
unparseable glob, unparseable regex, and a missing reference file are shown
evaluating to `some false`. -/
theorem c1_user_group_panics :
    evaluate envT (Expr.Test (Test.User "alice")) entryNoOwner = none
    ∧ evaluate envT (Expr.Test (Test.Group "staff")) entryNoOwner = none
    ∧ evaluate envT (Expr.Test (Test.Name "[")) entryNoOwner = some false
    ∧ evaluate envT (Expr.Test (Test.Regex "(")) entryNoOwner = some false
    ∧ evaluate envT (Expr.Test (Test.Mnewer "missing")) entryNoOwner = some false := by
  refine ⟨?_, ?_, ?_, ?_, ?_⟩ <;> decide

/-- Claim C2.  The claim states that a non-numeric `Group(s)` argument is
compared against the candidate file's owning *group* name.  The code violates
it: `match_group` resolves `entry.path().owner()` - the owner's *user* name -
so on an entry owned by user "alice" with owning group "staff", `-group
staff` is false and `-group alice` is true, the opposite of the spec-side
test `specGroupTest`.  The numeric branch (last conjunct) behaves as
claimed. -/
theorem c2_group_compares_owner_name :
    match_group "staff" entryStd = some false
    ∧ specGroupTest "staff" entryStd = true
    ∧ match_group "alice" entryStd = some true
    ∧ specGroupTest "alice" entryStd = false
    ∧ match_group "100" entryStd = some true := by
  refine ⟨?_, ?_, ?_, ?_, ?_⟩ <;> decide

/-- Claim C3.  The claim states that `Iname`/`Ipath` lower-case *both* sides
before matching.  The code violates it: `match_glob_pattern` lower-cases only
the candidate string, never the pattern, so the pattern `*.TXT` fails against
the file name `FOO.TXT` even though the both-sides-lower-cased spec reading
(`specInameTest`, `specIpathTest`) matches; an all-lower-case pattern matches
as expected. -/
theorem c3_iname_lowercases_target_only :
    match_name "*.TXT" entryFOO true = false
    ∧ specInameTest "*.TXT" entryFOO = true
    ∧ match_path "*.TXT" entryFOO true = false
    ∧ specIpathTest "*.TXT" entryFOO = true
    ∧ match_name "*.txt" entryFOO true = true
    ∧ evaluate envT (Expr.Test (Test.Iname "*.TXT")) entryFOO = some false := by
  refine ⟨?_, ?_, ?_, ?_, ?_, ?_⟩ <;> decide

/-- Claim C4.  The claim states that compilation fails with an error and
does not panic or crash on an unknown test keyword, a missing required
argument, a malformed number, or an unterminated parenthesis.  The pipeline
violates it for the grammar-level failures: main.rs lines 78-79 unwrap the
grammar parse with `.expect`, so an unknown keyword, a missing argument and
an unterminated parenthesis panic the process.  The malformed-number case
behaves as claimed: `-uid abc` is rejected with `InvalidNumber "abc"` through
the graceful error path, and well-formed input (including the empty
expression) compiles to an AST. -/
theorem c4_compile_panics_on_grammar_reject :
    mainCompile ["-foo"] = CompileOutcome.panicked
    ∧ mainCompile ["-name"] = CompileOutcome.panicked
    ∧ mainCompile ["(", "-true"] = CompileOutcome.panicked
    ∧ mainCompile ["-uid", "abc"] = CompileOutcome.compileError (ParseError.InvalidNumber "abc")
    ∧ mainCompile ["-uid", "5"] = CompileOutcome.ok (Expr.Test (Test.Uid 5))
    ∧ mainCompile [] = CompileOutcome.ok (Expr.Test Test.True) := by
  refine ⟨?_, ?_, ?_, ?_, ?_, ?_⟩ <;> decide

/-- Claim C10.  The size-target computation is unchecked u64 arithmetic: the
target is always the product value × multiplier reduced modulo 2^64, and for
the size spec `17179869184G` (2^34 GiB, product 2^64) the computed target is
0, so a zero-length file satisfies the test even though the exact-arithmetic
spec-side test `specSizeTest` rejects it. -/
theorem c10_size_target_wraps :
    (∀ size_spec : SizeSpec,
      calculate_size_in_bytes size_spec
        = (size_spec.value * sizeMultiplier size_spec.suffix) % 18446744073709551616)
    ∧ calculate_size_in_bytes { sign := Sign.None, value := 17179869184, suffix := some SizeSuffix.Gb } = 0
    ∧ 17179869184 * sizeMultiplier (some SizeSuffix.Gb) = 18446744073709551616
    ∧ match_size { sign := Sign.None, value := 17179869184, suffix := some SizeSuffix.Gb } entryZeroLen = true
    ∧ specSizeTest { sign := Sign.None, value := 17179869184, suffix := some SizeSuffix.Gb } 0 = false := by
  refine ⟨fun s => rfl, ?_, ?_, ?_, ?_⟩ <;> decide

/-- Claim C7, counterexample.  The claim asserts for *every* size spec that
the comparison target is value × unit-multiplier with exact arithmetic; at
the spec `17179869184G` and a zero-length entry the code accepts the entry
(wrapped target 0) while the claimed exact-arithmetic semantics rejects it. -/
theorem c7_size_exact_counterexample :
    match_size { sign := Sign.None, value := 17179869184, suffix := some SizeSuffix.Gb } entryZeroLen = true
    ∧ specSizeTest { sign := Sign.None, value := 17179869184, suffix := some SizeSuffix.Gb } 0 = false := by
  refine ⟨?_, ?_⟩ <;> decide

/-- Claim C5, counterexample.  The claim asserts that `Regex(p)` is true only
when the anchored match covers the entire path.  For `p = "a|b"` the wrapped
pattern is `^a|b$`, whose alternation binds loosest; on the path "ab" the
branch `^a` matches at the start, so the code reports a match even though no
match of `a|b` covers the entire path. -/
theorem c5_regex_counterexample :
    match_regex "a|b" entryAB = true
    ∧ specFullPathRegexMatch "a|b" "ab" = false := by
  refine ⟨?_, ?_⟩ <;> decide

/-- Claim C6.  For every time test and every entry carrying the relevant
timestamp, the code computes exactly the spec-side comparison: false for a
future timestamp, otherwise whole elapsed units `(now - t) / unit` (60 for
the min family, 86400 for the time family) compared against the value
according to the sign (none = equal, plus = greater, minus = less). -/
theorem c6_time_tests (env : Env) (spec : TimeSpec) (e : Entry) (m : Meta) (ta tc tm : Nat)
    (hm : e.meta = some m) (ha : m.accessed = some ta) (hc : m.created = some tc)
    (hmo : m.modified = some tm) :
    match_amin env spec e = specTimeTest env.now ta spec.value spec.sign 60
    ∧ match_atime env spec e = specTimeTest env.now ta spec.value spec.sign 86400
    ∧ match_cmin env spec e = specTimeTest env.now tc spec.value spec.sign 60
    ∧ match_ctime env spec e = specTimeTest env.now tc spec.value spec.sign 86400
    ∧ match_mmin env spec e = specTimeTest env.now tm spec.value spec.sign 60
    ∧ match_mtime env spec e = specTimeTest env.now tm spec.value spec.sign 86400 := by
  refine ⟨?_, ?_, ?_, ?_, ?_, ?_⟩ <;>
    simp only [match_amin, match_atime, match_cmin, match_ctime, match_mmin, match_mtime,
      hm, ha, hc, hmo] <;>
    rfl

/-- Claim C6, witness: in an environment whose clock reads 1800 seconds, the
standard entry (all timestamps 0) was modified exactly 30 minutes ago; it
satisfies `-mmin 30` and `-mmin -31` but not `-mmin +30`. -/
theorem c6_time_tests_witness :
    match_mmin envT { sign := Sign.None, value := 30 } entryStd = true
    ∧ match_mmin envT { sign := Sign.Plus, value := 30 } entryStd = false
    ∧ match_mmin envT { sign := Sign.Minus, value := 31 } entryStd = true := by
  refine ⟨?_, ?_, ?_⟩
  · rw [(c6_time_tests envT { sign := Sign.None, value := 30 } entryStd metaStd 0 0 0
      rfl rfl rfl rfl).2.2.2.2.1]
    decide
  · rw [(c6_time_tests envT { sign := Sign.Plus, value := 30 } entryStd metaStd 0 0 0
      rfl rfl rfl rfl).2.2.2.2.1]
    decide
  · rw [(c6_time_tests envT { sign := Sign.Minus, value := 31 } entryStd metaStd 0 0 0
      rfl rfl rfl rfl).2.2.2.2.1]
    decide

/-- Claim C7, amended.  For every size spec whose product value ×
unit-multiplier does not overflow u64, the test compares the entry's byte
length against value × unit-multiplier according to the sign, exactly as the
spec-side `specSizeTest`; for overflowing products the code compares against
the product reduced modulo 2^64 instead (see the counterexample). -/
theorem c7_size_no_overflow (spec : SizeSpec) (e : Entry) (m : Meta)
    (hm : e.meta = some m)
    (hov : spec.value * sizeMultiplier spec.suffix < 18446744073709551616) :
    match_size spec e = specSizeTest spec m.len := by
  have hcalc : calculate_size_in_bytes spec = spec.value * sizeMultiplier spec.suffix := by
    show (spec.value * sizeMultiplier spec.suffix) % 18446744073709551616
        = spec.value * sizeMultiplier spec.suffix
    exact Nat.mod_eq_of_lt hov
  simp only [match_size, hm, hcalc]
  rfl

/-- Claim C7, witness: the 1024-byte entry satisfies `-size 1k` and
`-size +1c` and `-size -2k` but not `-size 2048c`. -/
theorem c7_size_no_overflow_witness :
    match_size { sign := Sign.None, value := 1, suffix := some SizeSuffix.Kb } entryStd = true
    ∧ match_size { sign := Sign.Plus, value := 1, suffix := some SizeSuffix.Bytes } entryStd = true
    ∧ match_size { sign := Sign.Minus, value := 2, suffix := some SizeSuffix.Kb } entryStd = true
    ∧ match_size { sign := Sign.None, value := 2048, suffix := some SizeSuffix.Bytes } entryStd = false := by
  refine ⟨?_, ?_, ?_, ?_⟩
  · rw [c7_size_no_overflow { sign := Sign.None, value := 1, suffix := some SizeSuffix.Kb }
      entryStd metaStd rfl (by decide)]
    decide
  · rw [c7_size_no_overflow { sign := Sign.Plus, value := 1, suffix := some SizeSuffix.Bytes }
      entryStd metaStd rfl (by decide)]
    decide
  · rw [c7_size_no_overflow { sign := Sign.Minus, value := 2, suffix := some SizeSuffix.Kb }
      entryStd metaStd rfl (by decide)]
    decide
  · rw [c7_size_no_overflow { sign := Sign.None, value := 2048, suffix := some SizeSuffix.Bytes }
      entryStd metaStd rfl (by decide)]
    decide

/-- Claim C8.  Symbolic permission matching folds the ordered statement list
left to right starting from the file's current low-9 permission bits - each
statement seeing the cumulative result (`add` ORs the mask in, `remove` ANDs
it out, `set` clears the principal's field then ORs the mask in) - and the
resulting value is matched with the same prefix policy as the numeric case
(none = exact equality, all-mode = every target bit set, any-mode = at least
one target bit set). -/
theorem c8_symbolic_perm_fold :
    (∀ (stmts : List SymPermStatement) (file_perms : Nat) (px : Option PermPrefix),
      match_symbolic_perm stmts file_perms px
        = match_numeric_perm (List.foldl specApplyStatement file_perms stmts) file_perms px)
    ∧ (∀ (stmts : List SymPermStatement) (acc : Nat),
      symbolic_to_numeric stmts acc = List.foldl specApplyStatement acc stmts)
    ∧ (∀ target file : Nat, match_numeric_perm target file none = (file == target))
    ∧ (∀ target file : Nat,
      match_numeric_perm target file (some PermPrefix.AllMode) = ((file &&& target) == target))
    ∧ (∀ target file : Nat,
      match_numeric_perm target file (some PermPrefix.AnyMode) = ((file &&& target) != 0))
    ∧ (∀ (stmts : List SymPermStatement) (px : Option PermPrefix) (e : Entry) (m : Meta),
      e.meta = some m →
      match_perm { pfx := px, term := PermTerm.Symbolic stmts } e
        = match_numeric_perm (List.foldl specApplyStatement (m.mode &&& 0o777) stmts)
            (m.mode &&& 0o777) px) := by
  refine ⟨?_, symbolic_to_numeric_eq_foldl, fun _ _ => rfl, fun _ _ => rfl, fun _ _ => rfl, ?_⟩
  · intro stmts file_perms px
    simp only [match_symbolic_perm, symbolic_to_numeric_eq_foldl]
  · intro stmts px e m hm
    simp only [match_perm, hm, match_symbolic_perm, symbolic_to_numeric_eq_foldl]

/-- Claim C8, witness: the 0644 entry satisfies `-perm -u+r` (all-mode
symbolic user-read), matching the spec's permission-composition example. -/
theorem c8_symbolic_perm_fold_witness :
    match_perm
      { pfx := some PermPrefix.AllMode,
        term := PermTerm.Symbolic
          [{ principal := SymPrincipal.User, operator := SymPermOperator.Add,
             privileges := [SymPermPriv.Read] }] } entryStd = true := by
  rw [c8_symbolic_perm_fold.2.2.2.2.2
    [{ principal := SymPrincipal.User, operator := SymPermOperator.Add,
       privileges := [SymPermPriv.Read] }]
    (some PermPrefix.AllMode) entryStd metaStd rfl]
  decide

/-- Claim C9.  `And` and `Or` evaluate left to right with the Rust
short-circuit: the instrumented evaluator (whose boolean agrees with
`evaluate` everywhere, first conjunct) shows that when the left operand of
`And` is false the result is false and the trace is exactly the left
operand's trace - no test of the right operand is evaluated - and
symmetrically for `Or` on a true left operand.  In particular
`And(False, Mnewer "missing")` evaluates to false with trace `[False]`: the
missing reference file is never touched. -/
theorem c9_short_circuit :
    (∀ (env : Env) (e : Entry) (x : Expr), (evalTrace env x e).1 = evaluate env x e)
    ∧ (∀ (env : Env) (e : Entry) (a b : Expr), (evalTrace env a e).1 = some false →
        evalTrace env (Expr.And a b) e = (some false, (evalTrace env a e).2))
    ∧ (∀ (env : Env) (e : Entry) (a b : Expr), (evalTrace env a e).1 = some true →
        evalTrace env (Expr.Or a b) e = (some true, (evalTrace env a e).2))
    ∧ (∀ (env : Env) (e : Entry),
        evalTrace env (Expr.And (Expr.Test Test.False) (Expr.Test (Test.Mnewer "missing"))) e
          = (some false, [Test.False]))
    ∧ (∀ (env : Env) (e : Entry),
        Test.Mnewer "missing" ∉
          (evalTrace env (Expr.And (Expr.Test Test.False) (Expr.Test (Test.Mnewer "missing"))) e).2) := by
  refine ⟨fun env e => evalTrace_fst env e, ?_, ?_, fun env e => rfl, ?_⟩
  · intro env e a b h
    cases hp : evalTrace env a e with
    | mk r t =>
      rw [hp] at h
      have hr : r = some false := h
      subst hr
      simp [evalTrace, hp]
  · intro env e a b h
    cases hp : evalTrace env a e with
    | mk r t =>
      rw [hp] at h
      have hr : r = some true := h
      subst hr
      simp [evalTrace, hp]
  · intro env e
    have h : evalTrace env (Expr.And (Expr.Test Test.False) (Expr.Test (Test.Mnewer "missing"))) e
        = (some false, [Test.False]) := rfl
    rw [h]
    decide

/-- Claim C9, witness: with the left operand `False`, the conjunction with a
missing-reference right operand short-circuits to false with the left
operand's trace. -/
theorem c9_short_circuit_witness :
    (evalTrace envT (Expr.Test Test.False) entryStd).1 = some false
    ∧ evalTrace envT (Expr.And (Expr.Test Test.False) (Expr.Test (Test.Mnewer "missing"))) entryStd
        = (some false, (evalTrace envT (Expr.Test Test.False) entryStd).2) :=
  ⟨rfl, c9_short_circuit.2.1 envT entryStd (Expr.Test Test.False)
    (Expr.Test (Test.Mnewer "missing")) rfl⟩

/-- Alternation-branch parse of a singleton split. -/
theorem altsParse_singleton (l : List Char) :
    altsParse [l] = match seqParse l with
      | some r => some [r]
      | none => none := by
  cases h : seqParse l <;> simp [altsParse, h]

/-- Compiling the bar-free branch list of an anchored pattern `^ pl $`. -/
theorem anchored_altsParse (pl : List Char) (h : '|' ∉ pl) :
    altsParse (splitOnChar '|' ('^' :: pl ++ ['$']))
      = match seqParse pl with
        | some r => some [RAtom.caret :: (r ++ [RAtom.dollar])]
        | none => none := by
  have hmem : '|' ∉ '^' :: pl ++ ['$'] := by
    intro hx
    rcases List.mem_append.mp hx with h1 | h2
    · rcases List.mem_cons.mp h1 with h3 | h4
      · exact absurd h3 (by decide)
      · exact h h4
    · simp at h2
  rw [splitOnChar_of_not_mem _ _ hmem, altsParse_singleton]
  have hseq : seqParse ('^' :: pl ++ ['$'])
      = match seqParse pl with
        | some r => some (RAtom.caret :: (r ++ [RAtom.dollar]))
        | none => none := by
    rw [List.cons_append]
    show (match rAtomOf '^', seqParse (pl ++ ['$']) with
          | some a, some r => some (a :: r)
          | _, _ => none) = _
    rw [seqParse_append]
    rw [show rAtomOf '^' = some RAtom.caret from rfl]
    rw [show seqParse ['$'] = some [RAtom.dollar] from rfl]
    cases seqParse pl <;> simp
  rw [hseq]
  cases seqParse pl <;> simp

/-- `Regex::new` on the wrapped pattern `^ pl $` for a bar-free `pl`. -/
theorem reParse_anchored (pl : List Char) (h : '|' ∉ pl) :
    reParse ('^' :: pl ++ ['$'])
      = match seqParse pl with
        | some r => some (false, [RAtom.caret :: (r ++ [RAtom.dollar])])
        | none => none := by
  have htake : ¬ (('^' :: pl ++ ['$']).take 4 = ['(', '?', 'i', ')']) := by
    rw [List.cons_append, List.take_succ_cons]
    intro hh
    injection hh with h1 _
    exact absurd h1 (by decide)
  unfold reParse
  rw [if_neg htake, anchored_altsParse pl h]
  cases seqParse pl <;> simp

/-- `Regex::new` on the wrapped pattern `(?i)^ pl $` for a bar-free `pl`. -/
theorem reParse_anchored_ci (pl : List Char) (h : '|' ∉ pl) :
    reParse ('(' :: '?' :: 'i' :: ')' :: '^' :: pl ++ ['$'])
      = match seqParse pl with
        | some r => some (true, [RAtom.caret :: (r ++ [RAtom.dollar])])
        | none => none := by
  have htake : ('(' :: '?' :: 'i' :: ')' :: '^' :: pl ++ ['$']).take 4 = ['(', '?', 'i', ')'] := rfl
  have hdrop : ('(' :: '?' :: 'i' :: ')' :: '^' :: pl ++ ['$']).drop 4 = '^' :: pl ++ ['$'] := rfl
  unfold reParse
  rw [if_pos htake, hdrop, anchored_altsParse pl h]
  cases seqParse pl <;> simp

/-- `Regex::new` on a raw bar-free pattern that does not start with the
`(?i)` flag. -/
theorem reParse_plain (pl : List Char) (hbar : '|' ∉ pl)
    (htake : ¬ pl.take 4 = ['(', '?', 'i', ')']) :
    reParse pl = match seqParse pl with
      | some r => some (false, [r])
      | none => none := by
  unfold reParse
  rw [if_neg htake, splitOnChar_of_not_mem _ _ hbar, altsParse_singleton]
  cases seqParse pl <;> simp

/-- Claim C5, amended.  `Regex(p)` runs the engine on `^p$` and `Iregex(p)`
on `(?i)^p$`; because alternation binds loosest, the appended anchors attach
to the outermost branches, so full-path coverage is only guaranteed when `p`
has no top-level alternation.  For every pattern of the modelled fragment
containing no `|` (and no `(`, which would be read as a flag/group opener),
the code's anchored match is exactly the spec's full-path match, and `Iregex`
is the same with case-insensitive matching; a malformed pattern evaluates to
`false`. -/
theorem c5_regex_anchoring (p : String) (e : Entry)
    (hbar : '|' ∉ p.toList) (hpar : '(' ∉ p.toList) :
    match_regex p e = specFullPathRegexMatch p e.pathStr
    ∧ match_iregex p e = specFullPathIregexMatch p e.pathStr
    ∧ match_regex "(" e = false
    ∧ match_iregex "[" e = false := by
  have htakep : ¬ (p.toList.take 4 = ['(', '?', 'i', ')']) := by
    intro h
    apply hpar
    have h4 : '(' ∈ p.toList.take 4 := by rw [h]; simp
    exact List.take_subset 4 p.toList h4
  refine ⟨?_, ?_, rfl, rfl⟩
  · show (match reParse ('^' :: p.toList ++ ['$']) with
          | some (ci, regex) => reIsMatch ci regex e.pathStr.toList
          | none => false)
        = (match reParse p.toList with
          | some (ci, re) => fullMatchRE ci re e.pathStr.toList
          | none => false)
    rw [reParse_anchored p.toList hbar, reParse_plain p.toList hbar htakep]
    cases hsp : seqParse p.toList with
    | none => rfl
    | some r =>
      show reIsMatch false [RAtom.caret :: (r ++ [RAtom.dollar])] e.pathStr.toList
          = fullMatchRE false [r] e.pathStr.toList
      rw [anchored_reIsMatch]
      simp [fullMatchRE]
  · show (match reParse ('(' :: '?' :: 'i' :: ')' :: '^' :: p.toList ++ ['$']) with
          | some (ci, regex) => reIsMatch ci regex e.pathStr.toList
          | none => false)
        = (match reParse p.toList with
          | some (fst, re) => fullMatchRE true re e.pathStr.toList
          | none => false)
    rw [reParse_anchored_ci p.toList hbar, reParse_plain p.toList hbar htakep]
    cases hsp : seqParse p.toList with
    | none => rfl
    | some r =>
      show reIsMatch true [RAtom.caret :: (r ++ [RAtom.dollar])] e.pathStr.toList
          = fullMatchRE true [r] e.pathStr.toList
      rw [anchored_reIsMatch]
      simp [fullMatchRE]

/-- Claim C5, witness: for the bar-free pattern "ab" on the path "ab" the
anchored code match and the spec's full-path match agree (both true), and on
the path "/tmp/FOO.TXT" they agree again (both false). -/
theorem c5_regex_anchoring_witness :
    ('|' ∉ "ab".toList) ∧ ('(' ∉ "ab".toList)
    ∧ match_regex "ab" entryAB = specFullPathRegexMatch "ab" entryAB.pathStr
    ∧ match_regex "ab" entryAB = true
    ∧ match_regex "ab" entryFOO = specFullPathRegexMatch "ab" entryFOO.pathStr
    ∧ match_regex "ab" entryFOO = false := by
  refine ⟨by decide, by decide, (c5_regex_anchoring "ab" entryAB (by decide) (by decide)).1,
    by decide, (c5_regex_anchoring "ab" entryFOO (by decide) (by decide)).1, by decide⟩
